import Mathlib

/-!
Verification of the table-classification and ratio-derivation core of a
financial-statement scraper (src/logic.py).

The embedding models, from the source:
- cell strings and their numeric coercion (pandas to_numeric with coerce);
- label cleaning (non-breaking spaces, plus markers, whitespace strip);
- classification of the extracted tables into Balance Sheet and Profit
  and Loss by keyword predicates over the cleaned first column;
- normalization (label cleaning, keep-first dedup for the Profit and Loss
  table, comma and percent stripping, numeric coercion);
- per-period ratio derivation with KeyError-style skipping of a period.

Numbers are modelled as rationals. A missing value (pandas NaN, also the
Python None appearing in the same positions) is Option.none. Division is
guarded at every call site exactly as in the source, so rational division
never meets an exact zero denominator on a reachable path.
-/

/-- Whitespace characters stripped by the Python strip used on labels and
accepted around numerals (ASCII subset; the non-breaking space is replaced
by a plain space before any strip in the source). -/
def pyWs (c : Char) : Bool :=
  c == ' ' || c == '\t' || c == '\n' || c == '\r' || c == '\x0b' || c == '\x0c'

/-- Removal of trailing whitespace. -/
def dropTrailing (cs : List Char) : List Char :=
  (cs.reverse.dropWhile pyWs).reverse

/-- Removal of leading and trailing whitespace (Python strip). -/
def trimChars (cs : List Char) : List Char :=
  dropTrailing (cs.dropWhile pyWs)

/-- The non-breaking space character. -/
def nbspChar : Char := '\u00A0'

/-- Replacement of a non-breaking space by a plain space. -/
def swapNbsp (c : Char) : Char := if c == nbspChar then ' ' else c

/-- Character-level label cleaning: non-breaking spaces to plain spaces,
every plus character removed, surrounding whitespace stripped. -/
def cleanChars (cs : List Char) : List Char :=
  trimChars ((cs.map swapNbsp).filter (fun c => c != '+'))

/-- Label cleaning from the source (replace nbsp, replace plus, strip). -/
def cleanLabel (s : String) : String := String.mk (cleanChars s.toList)

/-- Value of a digit string. -/
def digitsVal (cs : List Char) : ℕ :=
  cs.foldl (fun a c => a * 10 + (c.toNat - 48)) 0

/-- Parsing of an optionally signed decimal numeral, as the float
conversion underlying pandas to_numeric accepts for the plain table cells
in scope; anything else fails. Exponent forms and special float literals
do not occur in these tables and are outside the model. -/
def parseChars (cs : List Char) : Option ℚ :=
  let sgn : ℚ × List Char :=
    match cs with
    | '-' :: rest => (-1, rest)
    | '+' :: rest => (1, rest)
    | _ => (1, cs)
  let ip := sgn.2.takeWhile Char.isDigit
  let rest := sgn.2.dropWhile Char.isDigit
  match rest with
  | [] => if ip.isEmpty then none else some (sgn.1 * digitsVal ip)
  | '.' :: fp =>
    if fp.all Char.isDigit && !(ip.isEmpty && fp.isEmpty) then
      some (sgn.1 * ((digitsVal ip : ℚ) + (digitsVal fp : ℚ) / (10 : ℚ) ^ fp.length))
    else none
  | _ => none

/-- pandas to_numeric with errors coerce on one cell: surrounding
whitespace is ignored and the remainder parsed; failure becomes missing
(NaN), never an exception. -/
def to_numeric (cs : List Char) : Option ℚ := parseChars (trimChars cs)

/-- Removal of every occurrence of one character (a single-character
Python str.replace with empty replacement). -/
def stripChar (x : Char) (cs : List Char) : List Char := cs.filter (fun c => c != x)

/-- Balance Sheet cell conversion: commas stripped, then numeric coercion
(source lines 73 to 76; no percent stripping happens on this table). -/
def convBSCell (s : String) : Option ℚ := to_numeric (stripChar ',' s.toList)

/-- Profit and Loss cell conversion: commas and percent signs stripped,
then numeric coercion (source lines 78 to 82). -/
def convPnlCell (s : String) : Option ℚ := to_numeric (stripChar '%' (stripChar ',' s.toList))

/-- A raw extracted HTML table: the period labels (header cells after the
label column) and rows of the form (line-item label, period cell strings).
The network fetch and the HTML table extraction that produce it are
external collaborators. -/
structure RawTable where
  cols : List String
  rows : List (String × List String)
  deriving DecidableEq

/-- The cleaned first column of a table, used by the classification. -/
def RawTable.firstCol (t : RawTable) : List String :=
  t.rows.map (fun r => cleanLabel r.1)

/-- Balance Sheet keyword predicate over the cleaned first column. -/
def bsPred (labels : List String) : Bool :=
  (labels.contains "Equity Capital" || labels.contains "Equity Share Capital") &&
  (labels.contains "Borrowings" || labels.contains "Total Liabilities")

/-- Profit and Loss keyword predicate over the cleaned first column. -/
def pnlPred (labels : List String) : Bool :=
  (labels.contains "Sales" || labels.contains "Revenue") &&
  labels.contains "Operating Profit"

/-- The classification loop over the extracted tables. A non-empty table
matching the Balance Sheet predicate overwrites the Balance Sheet slot and
is then skipped (the continue), so it is never considered for Profit and
Loss; a remaining table matching the Profit and Loss predicate overwrites
the Profit and Loss slot (both branches of the source if assign the
table, so later matches win in both slots). -/
def classifyLoop : List RawTable → Option RawTable × Option RawTable → Option RawTable × Option RawTable
  | [], acc => acc
  | t :: rest, acc =>
    if t.rows.isEmpty then classifyLoop rest acc
    else if bsPred t.firstCol then classifyLoop rest (some t, acc.2)
    else if pnlPred t.firstCol then classifyLoop rest (acc.1, some t)
    else classifyLoop rest acc

deriving instance DecidableEq for Except

/-- A normalized statement: period labels in original column order and
rows of the form (cleaned label, numeric-or-missing cell per period). -/
structure Statement where
  cols : List String
  rows : List (String × List (Option ℚ))
  deriving DecidableEq

/-- Keep-first removal of rows whose label was already seen (pandas
index.duplicated with keep first). -/
def dedupGo {α : Type} (seen : List String) : List (String × α) → List (String × α)
  | [] => []
  | r :: rest =>
    if r.1 ∈ seen then dedupGo seen rest
    else r :: dedupGo (r.1 :: seen) rest

/-- Normalization of the identified Balance Sheet table: labels cleaned,
cells coerced with comma stripping only. No dedup runs on this table. -/
def normalizeBS (t : RawTable) : Statement :=
  { cols := t.cols,
    rows := t.rows.map (fun r => (cleanLabel r.1, r.2.map convBSCell)) }

/-- Normalization of the identified Profit and Loss table: labels cleaned,
keep-first dedup, cells coerced with comma and percent stripping. -/
def normalizePnl (t : RawTable) : Statement :=
  { cols := t.cols,
    rows := (dedupGo [] (t.rows.map (fun r => (cleanLabel r.1, r.2)))).map
      (fun r => (r.1, r.2.map convPnlCell)) }

/-- Classification plus normalization of the extracted tables; raises when
either statement type is not found. -/
def scrape_tables (tables : List RawTable) : Except String (Statement × Statement) :=
  match classifyLoop tables (none, none) with
  | (some bsT, some pnlT) => .ok (normalizeBS bsT, normalizePnl pnlT)
  | _ => .error "Could not find Balance Sheet or P&L tables"

/-- Modelled re-run of the normalization steps of the source on an
already-normalized Balance Sheet statement: labels are cleaned again and
the index rebuilt; the value columns are now numeric dtype, so the textual
comma stripping is skipped by the dtype-equals-object guard and to_numeric
is the identity on numeric data. -/
def renormalizeBS (st : Statement) : Statement :=
  { cols := st.cols, rows := st.rows.map (fun r => (cleanLabel r.1, r.2)) }

/-- Modelled re-run of the normalization steps of the source on an
already-normalized Profit and Loss statement: labels cleaned again,
keep-first dedup again; the numeric columns pass through unchanged as for
the Balance Sheet. -/
def renormalizePnl (st : Statement) : Statement :=
  { cols := st.cols, rows := dedupGo [] (st.rows.map (fun r => (cleanLabel r.1, r.2))) }

/-- Python float truthiness of a possibly-missing value: NaN is truthy,
zero is falsy, any other number is truthy. -/
def truthy : Option ℚ → Bool
  | none => true
  | some q => decide (q ≠ 0)

/-- The strict positivity test of the source on a possibly-missing value:
NaN compares false. -/
def gt0 : Option ℚ → Bool
  | none => false
  | some q => decide (0 < q)

/-- Addition with missing-value propagation. -/
def optAdd : Option ℚ → Option ℚ → Option ℚ
  | some a, some b => some (a + b)
  | _, _ => none

/-- Division with missing-value propagation. Every call site guards the
denominator against exact zero first, so the zero-denominator case is
unreachable there. -/
def pyDiv : Option ℚ → Option ℚ → Option ℚ
  | some a, some b => some (a / b)
  | _, _ => none

/-- clean_val from the source: None and NaN become null, numbers pass
through as plain floats. -/
def clean_val (v : Option ℚ) : Option ℚ := v

/-- One output record of calculate_ratios; field names follow the source
dictionary keys. -/
structure RatioRecord where
  Company : String
  Month : String
  Debt_to_Equity : Option ℚ
  Operating_Profit_Margin : Option ℚ
  ROCE : Option ℚ
  deriving DecidableEq

/-- Membership of a label in the statement index. -/
def Statement.hasRow (st : Statement) (label : String) : Bool :=
  st.rows.any (fun r => r.1 == label)

/-- Scalar access (the .at of the source): KeyError when the row label or
the period column is absent, otherwise the stored value (missing for NaN).
The paths modelled by the theorems never perform this access on a
duplicated label; the first matching row is taken. -/
def Statement.cellAt (st : Statement) (label col : String) : Except Unit (Option ℚ) :=
  match st.rows.find? (fun r => r.1 == label), st.cols.findIdx? (fun c => c == col) with
  | some r, some i => .ok (r.2.getD i none)
  | _, _ => .error ()

/-- Equity synonym resolution of the source: Equity Capital, else Equity
Share Capital, else (when that is also absent) Share Capital. -/
def equityKey (bs : Statement) : String :=
  let k := if bs.hasRow "Equity Capital" then "Equity Capital" else "Equity Share Capital"
  if !bs.hasRow k && bs.hasRow "Share Capital" then "Share Capital" else k

/-- Revenue synonym resolution of the source: Sales, else Revenue. -/
def salesKey (pnl : Statement) : String :=
  if pnl.hasRow "Sales" then "Sales" else "Revenue"

/-- Margin synonym resolution of the source: OPM percent, else OPM. -/
def opmKey (pnl : Statement) : String :=
  if pnl.hasRow "OPM %" then "OPM %" else "OPM"

/-- Operating profit margin: a directly reported value is divided by 100
when it exceeds one (the float round-trip through str is exact in the
model and the percent sign was already stripped during normalization); a
missing reported value falls back to operating profit over revenue when
revenue is truthy, else null. -/
def normOpm (opm0 op_profit revenue : Option ℚ) : Option ℚ :=
  match opm0 with
  | none => if truthy revenue then pyDiv op_profit revenue else none
  | some v => some (if 1 < v then v / 100 else v)

/-- Debt to equity: debt over equity when equity is truthy, else null. -/
def dteOf (debt equity : Option ℚ) : Option ℚ :=
  if truthy equity then pyDiv debt equity else none

/-- ROCE guard of the source: the source also tests that ebit is not None,
but a missing ebit already propagates to missing through pyDiv, giving the
same null output. -/
def roceOf (ebit equity debt : Option ℚ) : Option ℚ :=
  if gt0 (optAdd equity debt) then pyDiv ebit (optAdd equity debt) else none

/-- EBIT lookup of the source: Profit before tax plus Interest when both
labels are present, else None. -/
def getEbit (pnl : Statement) (col : String) : Except Unit (Option ℚ) :=
  if pnl.hasRow "Profit before tax" && pnl.hasRow "Interest" then do
    let p ← pnl.cellAt "Profit before tax" col
    let i ← pnl.cellAt "Interest" col
    Except.ok (optAdd p i)
  else Except.ok none

/-- The values one period of calculate_ratios looks up, in source order. -/
structure Resolved where
  debt : Option ℚ
  equity : Option ℚ
  revenue : Option ℚ
  op_profit : Option ℚ
  opm0 : Option ℚ
  ebit : Option ℚ
  deriving DecidableEq

/-- The lookup part of one loop iteration of calculate_ratios, in source
order; any KeyError aborts the period. -/
def resolve (bs pnl : Statement) (col : String) : Except Unit Resolved := do
  let debt ← bs.cellAt "Borrowings" col
  let ec ← bs.cellAt (equityKey bs) col
  let rs ← bs.cellAt "Reserves" col
  let revenue ← pnl.cellAt (salesKey pnl) col
  let op_profit ← pnl.cellAt "Operating Profit" col
  let opm0 ← if pnl.hasRow (opmKey pnl) then pnl.cellAt (opmKey pnl) col else Except.ok none
  let ebit ← getEbit pnl col
  Except.ok ⟨debt, optAdd ec rs, revenue, op_profit, opm0, ebit⟩

/-- The record appended by one successful loop iteration. -/
def mkRecord (company col : String) (x : Resolved) : RatioRecord :=
  { Company := company,
    Month := col,
    Debt_to_Equity := clean_val (dteOf x.debt x.equity),
    Operating_Profit_Margin := clean_val (normOpm x.opm0 x.op_profit x.revenue),
    ROCE := clean_val (roceOf x.ebit x.equity x.debt) }

/-- One loop iteration of calculate_ratios for one period column. -/
def derivePeriod (bs pnl : Statement) (company col : String) : Except Unit RatioRecord :=
  (resolve bs pnl col).map (mkRecord company col)

/-- The garbage-column skip of the source: a column label is valid when it
is non-empty after stripping (a NaN column label is likewise skipped). -/
def validCol (c : String) : Bool := !(trimChars c.toList).isEmpty

/-- calculate_ratios of the source: one record per valid Balance Sheet
period column whose lookups all succeed, in column order; a KeyError
silently skips just that period. -/
def calculate_ratios (bs pnl : Statement) (company : String) : List RatioRecord :=
  (bs.cols.filter validCol).filterMap (fun col => (derivePeriod bs pnl company col).toOption)

/-! ## Classification characterization -/

/-- Eligibility of a table for the Balance Sheet slot of the loop. -/
def bsCandidate (t : RawTable) : Bool := !t.rows.isEmpty && bsPred t.firstCol

/-- Eligibility of a table for the Profit and Loss slot of the loop (a
Balance Sheet match is skipped by the continue before this test). -/
def pnlCandidate (t : RawTable) : Bool :=
  !t.rows.isEmpty && !bsPred t.firstCol && pnlPred t.firstCol

theorem getLast?_isSome_cons {α : Type} (b : α) (m : List α) :
    ((b :: m).getLast?).isSome = true := by
  induction m generalizing b with
  | nil => rfl
  | cons c m ih => rw [List.getLast?_cons_cons]; exact ih c

theorem getLast?_cons_or {α : Type} (a : α) (l : List α) :
    (a :: l).getLast? = l.getLast?.or (some a) := by
  cases l with
  | nil => rfl
  | cons b m =>
    rw [List.getLast?_cons_cons]
    cases h : (b :: m).getLast? with
    | none => have hs := getLast?_isSome_cons b m; rw [h] at hs; simp at hs
    | some x => rfl

/-- The classification loop keeps, in each slot, the last candidate seen,
falling back to the incoming accumulator. -/
theorem classifyLoop_spec (ts : List RawTable) (acc : Option RawTable × Option RawTable) :
    classifyLoop ts acc =
      (((ts.filter bsCandidate).getLast?).or acc.1,
       ((ts.filter pnlCandidate).getLast?).or acc.2) := by
  induction ts generalizing acc with
  | nil => simp [classifyLoop]
  | cons t rest ih =>
    simp only [classifyLoop]
    by_cases he : t.rows.isEmpty <;> by_cases hb : bsPred t.firstCol <;>
      by_cases hp : pnlPred t.firstCol <;>
        simp [he, hb, hp, ih, List.filter_cons, bsCandidate, pnlCandidate,
          getLast?_cons_or, Option.or_assoc]

/-! ## C2: which table wins each slot -/

/-- A first table satisfying the Balance Sheet predicate. -/
def tBS1 : RawTable := ⟨["Mar 2023"], [("Equity Capital", ["50"]), ("Borrowings", ["100"])]⟩

/-- A second, different table satisfying the Balance Sheet predicate. -/
def tBS2 : RawTable := ⟨["Mar 2023"], [("Equity Capital", ["60"]), ("Borrowings", ["100"])]⟩

/-- A table satisfying the Profit and Loss predicate only. -/
def tPL1 : RawTable := ⟨["Mar 2023"], [("Sales", ["1000"]), ("Operating Profit", ["200"])]⟩

/-- C2 counterexample: with two distinct tables both satisfying the
Balance Sheet predicate, classification selects the second (last) one,
not the first as the claim states: the source assigns the Balance Sheet
slot unconditionally on every match. -/
theorem C2_counterexample :
    bsCandidate tBS1 = true ∧ bsCandidate tBS2 = true ∧ tBS1 ≠ tBS2 ∧
    classifyLoop [tBS1, tBS2, tPL1] (none, none) = (some tBS2, some tPL1) := by
  with_unfolding_all decide

/-- C2 (corrected): classification keeps the last non-empty table
satisfying the Balance Sheet predicate, and the last non-empty table that
fails the Balance Sheet predicate while satisfying the Profit and Loss
predicate: later matches overwrite earlier ones in both slots. -/
theorem C2_last_match_wins (ts : List RawTable) :
    classifyLoop ts (none, none) =
      ((ts.filter bsCandidate).getLast?, (ts.filter pnlCandidate).getLast?) := by
  rw [classifyLoop_spec]
  simp [Option.or_none]

/-! ## C10: a Balance Sheet match is never a Profit and Loss candidate -/

/-- A table satisfying both the Balance Sheet and the Profit and Loss
predicates. -/
def tBoth : RawTable :=
  ⟨["Mar 2023"], [("Equity Capital", ["50"]), ("Borrowings", ["100"]),
    ("Sales", ["1000"]), ("Operating Profit", ["200"])]⟩

/-- A table satisfying the Profit and Loss predicate only. -/
def tOnlyPnl : RawTable := ⟨["Mar 2023"], [("Sales", ["900"]), ("Operating Profit", ["90"])]⟩

/-- C10 (confirmed): the table placed in the Profit and Loss slot never
satisfies the Balance Sheet predicate (the continue excludes Balance
Sheet matches); and on an input whose only Profit and Loss match also
satisfies the Balance Sheet predicate, that table is taken as the Balance
Sheet and scraping fails for lack of a Profit and Loss table. -/
theorem C10_bs_match_never_pnl_candidate :
    (∀ (ts : List RawTable) (p : RawTable),
        (classifyLoop ts (none, none)).2 = some p → bsPred p.firstCol = false) ∧
    (bsPred tBoth.firstCol = true ∧ pnlPred tBoth.firstCol = true ∧
      scrape_tables [tBoth] = .error "Could not find Balance Sheet or P&L tables") := by
  constructor
  · intro ts p h
    rw [classifyLoop_spec] at h
    simp only [Option.or_none] at h
    have hm : p ∈ ts.filter pnlCandidate := List.mem_of_mem_getLast? (Option.mem_def.2 h)
    have hc : pnlCandidate p = true := (List.mem_filter.1 hm).2
    simp only [pnlCandidate, Bool.and_eq_true, Bool.not_eq_true'] at hc
    exact hc.1.2
  · with_unfolding_all decide

/-- C10 witness: a concrete run in which the Profit and Loss slot is
filled, instantiating the universal part of the theorem. -/
theorem C10_witness : bsPred tOnlyPnl.firstCol = false :=
  C10_bs_match_never_pnl_candidate.1 [tOnlyPnl] tOnlyPnl (by with_unfolding_all decide)

/-! ## Derivation-layer inversion lemmas -/

theorem bindOk {α β : Type} (a : α) (f : α → Except Unit β) :
    (Except.ok a >>= f) = f a := rfl

theorem bindErr {α β : Type} (f : α → Except Unit β) :
    ((Except.error () : Except Unit α) >>= f) = Except.error () := rfl

theorem toOption_eq_some {α : Type} {e : Except Unit α} {a : α}
    (h : e.toOption = some a) : e = .ok a := by
  cases e with
  | error x => simp [Except.toOption] at h
  | ok b => simp [Except.toOption] at h; rw [h]

/-- A successful scalar access implies the period column is present. -/
theorem cellAt_error_of_col_absent {st : Statement} {label col : String}
    (h : col ∉ st.cols) : st.cellAt label col = .error () := by
  have hidx : st.cols.findIdx? (fun c => c == col) = none := by
    rw [List.findIdx?_eq_none_iff]
    intro c hc
    exact beq_eq_false_iff_ne.2 (fun he => h (he ▸ hc))
  unfold Statement.cellAt
  rw [hidx]
  cases st.rows.find? (fun r => r.1 == label) <;> rfl

theorem cellAt_ok_col_mem {st : Statement} {label col : String} {v : Option ℚ}
    (h : st.cellAt label col = .ok v) : col ∈ st.cols := by
  by_contra hm
  rw [cellAt_error_of_col_absent hm] at h
  exact Except.noConfusion h

/-- Inversion of a successful resolve: every lookup succeeded and the
fields record the looked-up values. -/
theorem resolve_ok_fields {bs pnl : Statement} {col : String} {x : Resolved}
    (h : resolve bs pnl col = .ok x) :
    bs.cellAt "Borrowings" col = .ok x.debt ∧
    (∃ ec rs, bs.cellAt (equityKey bs) col = .ok ec ∧ bs.cellAt "Reserves" col = .ok rs ∧
      x.equity = optAdd ec rs) ∧
    pnl.cellAt (salesKey pnl) col = .ok x.revenue ∧
    pnl.cellAt "Operating Profit" col = .ok x.op_profit ∧
    (if pnl.hasRow (opmKey pnl) then pnl.cellAt (opmKey pnl) col else Except.ok none) = .ok x.opm0 ∧
    getEbit pnl col = .ok x.ebit := by
  unfold resolve at h
  cases h1 : bs.cellAt "Borrowings" col with
  | error e => rw [h1, bindErr] at h; exact Except.noConfusion h
  | ok debt =>
  simp only [h1, bindOk] at h
  cases h2 : bs.cellAt (equityKey bs) col with
  | error e => rw [h2, bindErr] at h; exact Except.noConfusion h
  | ok ec =>
  simp only [h2, bindOk] at h
  cases h3 : bs.cellAt "Reserves" col with
  | error e => rw [h3, bindErr] at h; exact Except.noConfusion h
  | ok rs =>
  simp only [h3, bindOk] at h
  cases h4 : pnl.cellAt (salesKey pnl) col with
  | error e => rw [h4, bindErr] at h; exact Except.noConfusion h
  | ok revenue =>
  simp only [h4, bindOk] at h
  cases h5 : pnl.cellAt "Operating Profit" col with
  | error e => rw [h5, bindErr] at h; exact Except.noConfusion h
  | ok op_profit =>
  simp only [h5, bindOk] at h
  by_cases hOp : pnl.hasRow (opmKey pnl) = true
  · rw [if_pos hOp] at h
    cases h6 : pnl.cellAt (opmKey pnl) col with
    | error e => rw [h6, bindErr] at h; exact Except.noConfusion h
    | ok opm0 =>
    simp only [h6, bindOk] at h
    cases h7 : getEbit pnl col with
    | error e => rw [h7, bindErr] at h; exact Except.noConfusion h
    | ok ebit =>
    simp only [h7, bindOk] at h
    injection h with h8
    subst h8
    exact ⟨rfl, ⟨ec, rs, rfl, rfl, rfl⟩, rfl, rfl, by rw [if_pos hOp], rfl⟩
  · rw [if_neg hOp] at h
    cases h7 : getEbit pnl col with
    | error e => rw [h7, bindErr] at h; exact Except.noConfusion h
    | ok ebit =>
    simp only [h7, bindOk] at h
    injection h with h8
    subst h8
    exact ⟨rfl, ⟨ec, rs, rfl, rfl, rfl⟩, rfl, rfl, by rw [if_neg hOp], rfl⟩

/-- Inversion of a successful loop iteration. -/
theorem derivePeriod_ok {bs pnl : Statement} {company col : String} {r : RatioRecord}
    (h : derivePeriod bs pnl company col = .ok r) :
    ∃ x, resolve bs pnl col = .ok x ∧ r = mkRecord company col x := by
  unfold derivePeriod at h
  cases hx : resolve bs pnl col with
  | error e => rw [hx] at h; exact Except.noConfusion h
  | ok x =>
    rw [hx] at h
    injection h with h'
    exact ⟨x, rfl, h'.symm⟩

/-- Every emitted record comes from a valid column whose resolve
succeeded. -/
theorem mem_calculate_ratios {bs pnl : Statement} {company : String} {r : RatioRecord}
    (h : r ∈ calculate_ratios bs pnl company) :
    ∃ col x, validCol col = true ∧ col ∈ bs.cols ∧
      resolve bs pnl col = .ok x ∧ r = mkRecord company col x := by
  unfold calculate_ratios at h
  obtain ⟨c, hc, hd⟩ := List.mem_filterMap.1 h
  obtain ⟨x, hx, hr⟩ := derivePeriod_ok (toOption_eq_some hd)
  exact ⟨c, x, (List.mem_filter.1 hc).2, (List.mem_filter.1 hc).1, hx, hr⟩

theorem pyDiv_none_left (e : Option ℚ) : pyDiv none e = none := by
  cases e <;> rfl

theorem dteOf_none_debt (e : Option ℚ) : dteOf none e = none := by
  unfold dteOf
  split
  · exact pyDiv_none_left e
  · rfl

/-! ## C1: a Balance Sheet only period -/

/-- Balance Sheet with one period and every line item needed for debt to
equity. -/
def bsC1 : Statement :=
  ⟨["Mar 2023"], [("Borrowings", [some 100]), ("Equity Capital", [some 50]),
    ("Reserves", [some 150])]⟩

/-- Profit and Loss whose only period differs from the Balance Sheet
period. -/
def pnlC1 : Statement := ⟨["Mar 2022"], [("Sales", [some 1000]), ("Operating Profit", [some 200])]⟩

/-- C1 counterexample: the period Mar 2023 is present in the Balance Sheet
with debt and equity resolvable, absent from the Profit and Loss table,
and the claim predicts a record with debt to equity populated; the code
emits nothing at all for the company. -/
theorem C1_counterexample :
    "Mar 2023" ∈ bsC1.cols ∧ "Mar 2023" ∉ pnlC1.cols ∧
    bsC1.cellAt "Borrowings" "Mar 2023" = .ok (some 100) ∧
    calculate_ratios bsC1 pnlC1 "ACME" = [] := by
  with_unfolding_all decide

/-- C1 (corrected): a period column absent from the Profit and Loss table
yields no RatioRecord at all: the revenue lookup raises a KeyError, which
the loop catches, silently skipping exactly that period (no exception
escapes, the function is total). -/
theorem C1_bs_only_period_skipped (bs pnl : Statement) (company col : String)
    (h : col ∉ pnl.cols) :
    (calculate_ratios bs pnl company).all (fun r => r.Month != col) = true := by
  rw [List.all_eq_true]
  intro r hr
  obtain ⟨c, x, hv, hcm, hx, hrec⟩ := mem_calculate_ratios hr
  have hm : r.Month = c := by rw [hrec]; rfl
  have hcc : c ≠ col := by
    intro hEq
    subst hEq
    exact h (cellAt_ok_col_mem (resolve_ok_fields hx).2.2.1)
  simp [hm, hcc]

/-- C1 witness: the corrected theorem applied at the concrete tables of
the counterexample. -/
theorem C1_witness :
    (calculate_ratios bsC1 pnlC1 "ACME").all (fun r => r.Month != "Mar 2023") = true :=
  C1_bs_only_period_skipped bsC1 pnlC1 "ACME" "Mar 2023" (by with_unfolding_all decide)

/-! ## C3: Borrowings label present but value missing -/

/-- Balance Sheet whose Borrowings cell is missing (label present). -/
def bsC3 : Statement :=
  ⟨["Mar 2023"], [("Borrowings", [none]), ("Equity Capital", [some 50]),
    ("Reserves", [some 150])]⟩

/-- Profit and Loss with the same period present. -/
def pnlC3 : Statement := ⟨["Mar 2023"], [("Sales", [some 1000]), ("Operating Profit", [some 200])]⟩

/-- C3 counterexample: the Borrowings label is present with a missing
value for Mar 2023 and the claim predicts that the period is skipped with
no RatioRecord; the code emits a record for that period (with debt to
equity null): a NaN cell read through scalar access is not a KeyError. -/
theorem C3_counterexample :
    bsC3.hasRow "Borrowings" = true ∧
    bsC3.cellAt "Borrowings" "Mar 2023" = .ok none ∧
    calculate_ratios bsC3 pnlC3 "ACME" = [⟨"ACME", "Mar 2023", none, some (1/5), none⟩] := by
  with_unfolding_all decide

/-- C3 (corrected): a missing Borrowings value (label present) does not
skip the period; every record emitted for that period carries a null debt
to equity. The period is skipped only when a required label itself is
absent (a true KeyError). -/
theorem C3_missing_debt_value_not_skipped (bs pnl : Statement) (company col : String)
    (h : bs.cellAt "Borrowings" col = .ok none) :
    (calculate_ratios bs pnl company).all
      (fun r => r.Month != col || r.Debt_to_Equity.isNone) = true := by
  rw [List.all_eq_true]
  intro r hr
  obtain ⟨c, x, hv, hcm, hx, hrec⟩ := mem_calculate_ratios hr
  have hm : r.Month = c := by rw [hrec]; rfl
  by_cases hcc : c = col
  · subst hcc
    have h1 := (resolve_ok_fields hx).1
    rw [h] at h1
    injection h1 with h2
    have hdte : r.Debt_to_Equity = none := by
      rw [hrec]
      show clean_val (dteOf x.debt x.equity) = none
      rw [← h2, dteOf_none_debt]
      rfl
    simp [hdte]
  · simp [hm, hcc]

/-- C3 witness: the corrected theorem applied at the concrete tables of
the counterexample (where a record for the period is in fact emitted). -/
theorem C3_witness :
    (calculate_ratios bsC3 pnlC3 "ACME").all
      (fun r => r.Month != "Mar 2023" || r.Debt_to_Equity.isNone) = true :=
  C3_missing_debt_value_not_skipped bsC3 pnlC3 "ACME" "Mar 2023" (by with_unfolding_all decide)

/-! ## C6: directly reported OPM normalization -/

/-- Balance Sheet for the OPM scenario. -/
def bsC6 : Statement :=
  ⟨["Mar 2023"], [("Borrowings", [some 100]), ("Equity Capital", [some 50]),
    ("Reserves", [some 150])]⟩

/-- Profit and Loss reporting a negative OPM of minus fifty. -/
def pnlC6 : Statement :=
  ⟨["Mar 2023"], [("Sales", [some 1000]), ("Operating Profit", [some 200]),
    ("OPM %", [some (-50)])]⟩

/-- C6 counterexample: an OPM reported as minus fifty has magnitude
exceeding one, so the claim predicts an emitted value of minus one half;
the code leaves it at minus fifty because the rescaling condition is a
signed greater-than-one test, not a magnitude test. -/
theorem C6_counterexample :
    (calculate_ratios bsC6 pnlC6 "ACME").map (fun r => r.Operating_Profit_Margin)
      = [some (-50)] ∧
    some ((-50 : ℚ) / 100) ≠ some (-50 : ℚ) := by
  with_unfolding_all decide

/-- C6 (corrected): a directly reported, non-missing OPM value v is
divided by 100 exactly when v exceeds 1 under the signed comparison and
kept unchanged otherwise; 15 becomes 0.15 and 0.15 stays 0.15, but a
negative reported value is never rescaled. -/
theorem C6_opm_direct_normalization (bs pnl : Statement) (company col : String) (v : ℚ)
    (hrow : pnl.hasRow (opmKey pnl) = true)
    (hcell : pnl.cellAt (opmKey pnl) col = .ok (some v)) :
    (calculate_ratios bs pnl company).all
      (fun r => r.Month != col ||
        decide (r.Operating_Profit_Margin = some (if 1 < v then v / 100 else v))) = true := by
  rw [List.all_eq_true]
  intro r hr
  obtain ⟨c, x, hv, hcm, hx, hrec⟩ := mem_calculate_ratios hr
  have hm : r.Month = c := by rw [hrec]; rfl
  by_cases hcc : c = col
  · subst hcc
    have h6 := (resolve_ok_fields hx).2.2.2.2.1
    rw [if_pos hrow, hcell] at h6
    injection h6 with h7
    have hopm : r.Operating_Profit_Margin = some (if 1 < v then v / 100 else v) := by
      rw [hrec]
      show clean_val (normOpm x.opm0 x.op_profit x.revenue) = _
      rw [← h7]
      rfl
    simp [hopm]
  · simp [hm, hcc]

/-- C6 witness: the corrected theorem applied at the concrete tables of
the counterexample. -/
theorem C6_witness :
    (calculate_ratios bsC6 pnlC6 "ACME").all
      (fun r => r.Month != "Mar 2023" ||
        decide (r.Operating_Profit_Margin
          = some (if 1 < (-50 : ℚ) then (-50 : ℚ) / 100 else (-50 : ℚ)))) = true :=
  C6_opm_direct_normalization bsC6 pnlC6 "ACME" "Mar 2023" (-50)
    (by with_unfolding_all decide) (by with_unfolding_all decide)

/-! ## C8: zero equity never divides -/

/-- Balance Sheet whose equity components sum to exactly zero. -/
def bsC8 : Statement :=
  ⟨["Mar 2023"], [("Borrowings", [some 100]), ("Equity Capital", [some (-150)]),
    ("Reserves", [some 150])]⟩

/-- Profit and Loss for the zero-equity scenario. -/
def pnlC8 : Statement := ⟨["Mar 2023"], [("Sales", [some 1000]), ("Operating Profit", [some 200])]⟩

/-- The resolved values of the zero-equity scenario. -/
def xC8 : Resolved := ⟨some 100, some 0, some 1000, some 200, none, none⟩

/-- C8 (confirmed): when the resolved equity is exactly zero the emitted
debt to equity is null (the guard makes zero falsy, so the division is
never attempted and no division error can arise: the function is total);
and the emitted debt to equity is a number q only when debt and equity
are both resolvable, equity is non-zero and q is their quotient. -/
theorem C8_zero_equity_gives_null (bs pnl : Statement) (company col : String) (x : Resolved)
    (h : resolve bs pnl col = .ok x) :
    derivePeriod bs pnl company col = .ok (mkRecord company col x) ∧
    (x.equity = some 0 → (mkRecord company col x).Debt_to_Equity = none) ∧
    (∀ q, (mkRecord company col x).Debt_to_Equity = some q →
      ∃ d e, x.debt = some d ∧ x.equity = some e ∧ e ≠ 0 ∧ q = d / e) := by
  refine ⟨?_, ?_, ?_⟩
  · unfold derivePeriod
    rw [h]
    rfl
  · intro hz
    show clean_val (dteOf x.debt x.equity) = none
    rw [hz]
    unfold clean_val dteOf truthy
    simp
  · intro q hq
    have hq' : dteOf x.debt x.equity = some q := hq
    unfold dteOf at hq'
    by_cases ht : truthy x.equity = true
    · rw [if_pos ht] at hq'
      cases hd : x.debt with
      | none => rw [hd, pyDiv_none_left] at hq'; exact Option.noConfusion hq'
      | some d =>
        cases he : x.equity with
        | none => rw [hd, he] at hq'; exact Option.noConfusion hq'
        | some e =>
          rw [hd, he] at hq'
          unfold pyDiv at hq'
          injection hq' with hq2
          refine ⟨d, e, rfl, rfl, ?_, hq2.symm⟩
          rw [he] at ht
          unfold truthy at ht
          exact of_decide_eq_true ht
    · rw [if_neg ht] at hq'
      exact Option.noConfusion hq'

set_option maxRecDepth 10000 in
/-- C8 witness: the theorem applied at a concrete input whose equity
resolves to zero, giving a null debt to equity. -/
theorem C8_witness : (mkRecord "ACME" "Mar 2023" xC8).Debt_to_Equity = none :=
  (C8_zero_equity_gives_null bsC8 pnlC8 "ACME" "Mar 2023" xC8
    (by with_unfolding_all decide)).2.1 rfl

/-! ## C4: record count and order -/

theorem filterMap_map_eq_filter {α β : Type} (f : α → Option β) (g : β → α)
    (hfg : ∀ a b, f a = some b → g b = a) (l : List α) :
    (l.filterMap f).map g = l.filter (fun a => (f a).isSome) := by
  induction l with
  | nil => rfl
  | cons a l ih =>
    cases hfa : f a with
    | none => simp [List.filterMap_cons, List.filter_cons, hfa, ih]
    | some b => simp [List.filterMap_cons, List.filter_cons, hfa, ih, hfg a b hfa]

/-- Balance Sheet with one valid period column but no Reserves row. -/
def bsC4 : Statement := ⟨["Mar 2023"], [("Borrowings", [some 100]), ("Equity Capital", [some 50])]⟩

/-- Profit and Loss for the missing-Reserves scenario. -/
def pnlC4 : Statement := ⟨["Mar 2023"], [("Sales", [some 1000]), ("Operating Profit", [some 200])]⟩

/-- C4 counterexample: the Balance Sheet has exactly one valid period
column, so the claim predicts exactly one emitted record; the Reserves
lookup raises a KeyError and the code emits none. -/
theorem C4_counterexample :
    (bsC4.cols.filter validCol).length = 1 ∧
    calculate_ratios bsC4 pnlC4 "ACME" = [] := by
  with_unfolding_all decide

/-- C4 (corrected): the emitted period labels are exactly the valid
Balance Sheet period columns whose per-period lookups all succeed, in the
original Balance Sheet column order; in particular the record count
equals the number of such columns (and so can fall short of the number of
valid columns when a lookup fails). -/
theorem C4_records_follow_bs_columns (bs pnl : Statement) (company : String) :
    (calculate_ratios bs pnl company).map (fun r => r.Month)
      = (bs.cols.filter validCol).filter
          (fun col => (derivePeriod bs pnl company col).toOption.isSome) ∧
    (calculate_ratios bs pnl company).length
      = ((bs.cols.filter validCol).filter
          (fun col => (derivePeriod bs pnl company col).toOption.isSome)).length := by
  have hfg : ∀ (c : String) (r : RatioRecord),
      (derivePeriod bs pnl company c).toOption = some r → r.Month = c := by
    intro c r h
    obtain ⟨x, hx, hr⟩ := derivePeriod_ok (toOption_eq_some h)
    rw [hr]
    rfl
  have h1 := filterMap_map_eq_filter
    (fun col => (derivePeriod bs pnl company col).toOption)
    (fun r => r.Month) hfg (bs.cols.filter validCol)
  refine ⟨h1, ?_⟩
  have h2 := congrArg List.length h1
  rwa [List.length_map] at h2

/-! ## Keep-first dedup lemmas -/

theorem mem_dedupGo {α : Type} {seen : List String} {l : List (String × α)} {x : String × α}
    (h : x ∈ dedupGo seen l) : x ∈ l := by
  induction l generalizing seen with
  | nil => exact absurd h (List.not_mem_nil x)
  | cons r rest ih =>
    unfold dedupGo at h
    by_cases hs : r.1 ∈ seen
    · rw [if_pos hs] at h
      exact List.mem_cons_of_mem r (ih h)
    · rw [if_neg hs] at h
      rcases List.mem_cons.1 h with h1 | h2
      · rw [h1]; exact List.mem_cons_self r rest
      · exact List.mem_cons_of_mem r (ih h2)

theorem dedupGo_not_mem_seen {α : Type} {seen : List String} {l : List (String × α)} :
    ∀ x ∈ dedupGo seen l, x.1 ∉ seen := by
  induction l generalizing seen with
  | nil => intro x hx; exact absurd hx (List.not_mem_nil x)
  | cons r rest ih =>
    intro x hx
    unfold dedupGo at hx
    by_cases hs : r.1 ∈ seen
    · rw [if_pos hs] at hx
      exact ih x hx
    · rw [if_neg hs] at hx
      rcases List.mem_cons.1 hx with h1 | h2
      · rw [h1]; exact hs
      · intro hmem
        exact (ih x h2) (List.mem_cons_of_mem r.1 hmem)

theorem dedupGo_labels_nodup {α : Type} (seen : List String) (l : List (String × α)) :
    ((dedupGo seen l).map Prod.fst).Nodup := by
  induction l generalizing seen with
  | nil => exact List.nodup_nil
  | cons r rest ih =>
    unfold dedupGo
    by_cases hs : r.1 ∈ seen
    · rw [if_pos hs]; exact ih seen
    · rw [if_neg hs]
      rw [List.map_cons, List.nodup_cons]
      refine ⟨?_, ih (r.1 :: seen)⟩
      intro hmem
      obtain ⟨y, hy, hyeq⟩ := List.mem_map.1 hmem
      exact dedupGo_not_mem_seen y hy (by rw [hyeq]; exact List.mem_cons_self r.1 seen)

theorem dedupGo_find? {α : Type} (seen : List String) (l : List (String × α)) (lbl : String)
    (hs : lbl ∉ seen) :
    (dedupGo seen l).find? (fun r => r.1 == lbl) = l.find? (fun r => r.1 == lbl) := by
  induction l generalizing seen with
  | nil => rfl
  | cons r rest ih =>
    unfold dedupGo
    by_cases hmem : r.1 ∈ seen
    · rw [if_pos hmem, ih seen hs]
      have hbf : (r.1 == lbl) = false := by
        refine beq_eq_false_iff_ne.2 ?_
        intro hb
        rw [hb] at hmem
        exact hs hmem
      rw [List.find?_cons]
      simp only [hbf]
    · rw [if_neg hmem]
      by_cases heq : r.1 = lbl
      · have hb : (r.1 == lbl) = true := beq_iff_eq.2 heq
        rw [List.find?_cons, List.find?_cons]
        simp only [hb]
      · have hbf : (r.1 == lbl) = false := beq_eq_false_iff_ne.2 heq
        rw [List.find?_cons, List.find?_cons]
        simp only [hbf]
        refine ih (r.1 :: seen) ?_
        intro hx
        rcases List.mem_cons.1 hx with h1 | h2
        · exact heq h1.symm
        · exact hs h2

/-! ## C5: uniqueness of (label, period) pairs after normalization -/

/-- A raw Balance Sheet table with a duplicated Borrowings row. -/
def bsRawC5 : RawTable :=
  ⟨["Mar 2023"], [("Borrowings", ["100"]), ("Borrowings", ["200"]),
    ("Equity Capital", ["50"]), ("Reserves", ["150"])]⟩

/-- A raw Profit and Loss table for the duplicate-row scenario. -/
def pnlRawC5 : RawTable := ⟨["Mar 2023"], [("Sales", ["1000"]), ("Operating Profit", ["200"])]⟩

set_option maxRecDepth 20000 in
/-- C5 counterexample: normalization keeps both Borrowings rows of the
Balance Sheet, so the (label, period) pairs of the normalized Balance
Sheet are not unique: the keep-first dedup of the source runs on the
Profit and Loss table only. -/
theorem C5_counterexample :
    (scrape_tables [bsRawC5, pnlRawC5]).toOption.map (fun p => p.1.rows.map Prod.fst)
      = some ["Borrowings", "Borrowings", "Equity Capital", "Reserves"] ∧
    ¬ (["Borrowings", "Borrowings", "Equity Capital", "Reserves"] : List String).Nodup := by
  with_unfolding_all decide

/-- C5 (corrected): the uniqueness and keep-first law holds for the
Profit and Loss statement only: its normalized labels are pairwise
distinct, and looking up any label yields the first raw occurrence of
that cleaned label with its converted values. The Balance Sheet is not
deduplicated and can retain duplicate labels. -/
theorem C5_pnl_unique_keep_first (t : RawTable) :
    ((normalizePnl t).rows.map Prod.fst).Nodup ∧
    ∀ lbl : String,
      (normalizePnl t).rows.find? (fun r => r.1 == lbl)
        = ((t.rows.map (fun r => (cleanLabel r.1, r.2))).find? (fun r => r.1 == lbl)).map
            (fun r => (r.1, r.2.map convPnlCell)) := by
  constructor
  · show (((dedupGo [] (t.rows.map (fun r => (cleanLabel r.1, r.2)))).map
      (fun r => (r.1, r.2.map convPnlCell))).map Prod.fst).Nodup
    rw [List.map_map]
    exact dedupGo_labels_nodup [] (t.rows.map (fun r => (cleanLabel r.1, r.2)))
  · intro lbl
    show ((dedupGo [] (t.rows.map (fun r => (cleanLabel r.1, r.2)))).map
        (fun r => (r.1, r.2.map convPnlCell))).find? (fun r => r.1 == lbl) = _
    rw [List.find?_map]
    rw [show ((fun r : String × List (Option ℚ) => r.1 == lbl) ∘
        (fun r : String × List String => (r.1, r.2.map convPnlCell)))
      = (fun r : String × List String => r.1 == lbl) from rfl]
    rw [dedupGo_find? [] (t.rows.map (fun r => (cleanLabel r.1, r.2))) lbl (List.not_mem_nil lbl)]

/-! ## C7: cell coercion over the two tables -/

/-- A raw Balance Sheet with a percent-suffixed cell. -/
def bsRawC7 : RawTable :=
  ⟨["Mar 2023"], [("Equity Capital", ["50"]), ("Borrowings", ["5%"]), ("Reserves", ["150"])]⟩

/-- A raw Profit and Loss table for the percent-cell scenario. -/
def pnlRawC7 : RawTable := ⟨["Mar 2023"], [("Sales", ["1,000"]), ("Operating Profit", ["200"])]⟩

set_option maxRecDepth 20000 in
/-- C7 counterexample: the claim says percent signs are stripped in both
tables, so a Balance Sheet cell 5 percent should coerce to 5; the code
strips percent signs only on the Profit and Loss table, so the Balance
Sheet cell becomes missing, while the identical Profit and Loss cell
would coerce to 5. -/
theorem C7_counterexample :
    (scrape_tables [bsRawC7, pnlRawC7]).toOption.map
        (fun p => p.1.cellAt "Borrowings" "Mar 2023")
      = some (.ok none) ∧
    convPnlCell "5%" = some 5 := by
  with_unfolding_all decide

set_option maxRecDepth 20000 in
/-- C7 (corrected): coercion is total and never raises, on failure the
cell becomes missing; commas are stripped in both tables, but percent
signs are stripped only in the Profit and Loss table: every Balance Sheet
cell goes through convBSCell (comma stripping only, so a percent cell
becomes missing), every Profit and Loss row is the convPnlCell image
(comma and percent stripping) of some raw row. -/
theorem C7_cell_coercion_shape (t : RawTable) :
    ((normalizeBS t).rows.map Prod.snd = t.rows.map (fun r => r.2.map convBSCell)) ∧
    ((normalizePnl t).rows.all (fun row => t.rows.any
        (fun raw => decide (row.1 = cleanLabel raw.1) &&
          decide (row.2 = raw.2.map convPnlCell))) = true) ∧
    (convBSCell "1,234" = some 1234 ∧ convPnlCell "1,234" = some 1234 ∧
     convBSCell "5%" = none ∧ convPnlCell "5%" = some 5 ∧
     convBSCell "abc" = none ∧ convPnlCell "abc" = none) := by
  refine ⟨?_, ?_, by with_unfolding_all decide⟩
  · show (t.rows.map (fun r => (cleanLabel r.1, r.2.map convBSCell))).map Prod.snd = _
    rw [List.map_map]
    rfl
  · rw [List.all_eq_true]
    intro row hrow
    obtain ⟨y, hy, hyeq⟩ := List.mem_map.1 hrow
    have hy2 : y ∈ t.rows.map (fun r => (cleanLabel r.1, r.2)) := mem_dedupGo hy
    obtain ⟨raw, hraw, hcl⟩ := List.mem_map.1 hy2
    rw [List.any_eq_true]
    refine ⟨raw, hraw, ?_⟩
    rw [← hyeq, ← hcl]
    simp

/-! ## C9: idempotence of normalization -/

theorem dropWhile_idem {α : Type} (p : α → Bool) (l : List α) :
    (l.dropWhile p).dropWhile p = l.dropWhile p := by
  induction l with
  | nil => rfl
  | cons a l ih =>
    rw [List.dropWhile_cons]
    by_cases h : p a = true
    · rw [if_pos h]; exact ih
    · rw [if_neg h, List.dropWhile_cons, if_neg h]

theorem dropTrailing_idem (l : List Char) :
    dropTrailing (dropTrailing l) = dropTrailing l := by
  unfold dropTrailing
  rw [List.reverse_reverse, dropWhile_idem]

theorem head?_dropWhile_not {α : Type} (p : α → Bool) (l : List α) {c : α}
    (h : (l.dropWhile p).head? = some c) : p c = false := by
  induction l with
  | nil => exact absurd h (by simp)
  | cons a l ih =>
    rw [List.dropWhile_cons] at h
    by_cases hp : p a = true
    · rw [if_pos hp] at h; exact ih h
    · rw [if_neg hp] at h
      have ha : a = c := by
        have := List.head?_cons (a := a) (l := l)
        rw [this] at h
        exact Option.some.inj h
      rw [← ha]
      exact Bool.eq_false_iff.2 hp

theorem dropWhile_eq_self_of_head {α : Type} (p : α → Bool) (l : List α)
    (h : ∀ c, l.head? = some c → p c = false) : l.dropWhile p = l := by
  cases l with
  | nil => rfl
  | cons a m =>
    have := h a (by rw [List.head?_cons])
    rw [List.dropWhile_cons]
    simp [this]

theorem head?_dropTrailing (m : List Char) :
    dropTrailing m = [] ∨ (dropTrailing m).head? = m.head? := by
  cases m with
  | nil => left; rfl
  | cons a m' =>
    unfold dropTrailing
    rw [List.reverse_cons, List.dropWhile_append]
    by_cases h : ((m'.reverse.dropWhile pyWs).isEmpty) = true
    · rw [if_pos h]
      by_cases ha : pyWs a = true
      · left; simp [List.dropWhile_cons, ha]
      · right; simp [List.dropWhile_cons, ha]
    · rw [if_neg h]
      right
      rw [List.reverse_append]
      simp

theorem trimChars_idem (l : List Char) : trimChars (trimChars l) = trimChars l := by
  unfold trimChars
  have h1 : (dropTrailing (l.dropWhile pyWs)).dropWhile pyWs = dropTrailing (l.dropWhile pyWs) := by
    apply dropWhile_eq_self_of_head
    intro c hc
    rcases head?_dropTrailing (l.dropWhile pyWs) with h | h
    · rw [h] at hc; exact absurd hc (by simp)
    · rw [h] at hc
      exact head?_dropWhile_not pyWs l hc
  rw [h1, dropTrailing_idem]

theorem mem_of_mem_dropWhile {α : Type} {p : α → Bool} {l : List α} {c : α}
    (h : c ∈ l.dropWhile p) : c ∈ l := by
  induction l with
  | nil => exact absurd h (List.not_mem_nil c)
  | cons a m ih =>
    rw [List.dropWhile_cons] at h
    by_cases hp : p a = true
    · rw [if_pos hp] at h; exact List.mem_cons_of_mem a (ih h)
    · rw [if_neg hp] at h; exact h

theorem mem_of_mem_trimChars {c : Char} {l : List Char} (h : c ∈ trimChars l) : c ∈ l := by
  unfold trimChars dropTrailing at h
  have h1 := mem_of_mem_dropWhile (List.mem_reverse.1 h)
  exact mem_of_mem_dropWhile (List.mem_reverse.1 h1)

theorem cleanChars_no_bad {c : Char} {cs : List Char} (h : c ∈ cleanChars cs) :
    c ≠ nbspChar ∧ (c != '+') = true := by
  unfold cleanChars at h
  have h1 := mem_of_mem_trimChars h
  have h2 : (c != '+') = true := (List.mem_filter.1 h1).2
  have h3 : c ∈ cs.map swapNbsp := (List.mem_filter.1 h1).1
  obtain ⟨d, hd, hde⟩ := List.mem_map.1 h3
  refine ⟨?_, h2⟩
  rw [← hde]
  unfold swapNbsp
  by_cases hdn : (d == nbspChar) = true
  · rw [if_pos hdn]
    intro hcon
    exact (by decide : (' ' : Char) ≠ nbspChar) hcon
  · rw [if_neg hdn]
    intro hcon
    exact hdn (beq_iff_eq.2 hcon)

theorem map_fixed_eq_self {α : Type} (f : α → α) (l : List α)
    (h : ∀ c ∈ l, f c = c) : l.map f = l := by
  induction l with
  | nil => rfl
  | cons a l ih =>
    rw [List.map_cons, h a (List.mem_cons_self a l),
      ih (fun c hc => h c (List.mem_cons_of_mem a hc))]

theorem cleanChars_idem (cs : List Char) : cleanChars (cleanChars cs) = cleanChars cs := by
  have hmap : (cleanChars cs).map swapNbsp = cleanChars cs := by
    apply map_fixed_eq_self
    intro c hc
    have : (c == nbspChar) = false := beq_eq_false_iff_ne.2 (cleanChars_no_bad hc).1
    simp [swapNbsp, this]
  have hfilter : (cleanChars cs).filter (fun c => c != '+') = cleanChars cs := by
    rw [List.filter_eq_self]
    intro a ha
    exact (cleanChars_no_bad ha).2
  have houter : cleanChars (cleanChars cs)
      = trimChars (((cleanChars cs).map swapNbsp).filter (fun c => c != '+')) := rfl
  rw [houter, hmap, hfilter]
  have hinner : trimChars (cleanChars cs)
      = trimChars (trimChars ((cs.map swapNbsp).filter (fun c => c != '+'))) := rfl
  rw [hinner, trimChars_idem]
  rfl

theorem cleanLabel_idem (s : String) : cleanLabel (cleanLabel s) = cleanLabel s := by
  unfold cleanLabel
  rw [show (String.mk (cleanChars s.toList)).toList = cleanChars s.toList from rfl]
  rw [cleanChars_idem]

theorem dedupGo_eq_self {α : Type} (seen : List String) (l : List (String × α))
    (hn : (l.map Prod.fst).Nodup) (hd : ∀ x ∈ l, x.1 ∉ seen) : dedupGo seen l = l := by
  induction l generalizing seen with
  | nil => rfl
  | cons r rest ih =>
    rw [List.map_cons, List.nodup_cons] at hn
    unfold dedupGo
    rw [if_neg (hd r (List.mem_cons_self r rest))]
    congr 1
    apply ih (r.1 :: seen) hn.2
    intro x hx hmem
    rcases List.mem_cons.1 hmem with h1 | h2
    · exact hn.1 (h1 ▸ List.mem_map_of_mem Prod.fst hx)
    · exact hd x (List.mem_cons_of_mem r hx) h2

/-- C9 (confirmed): re-running the normalization steps on an already
normalized statement changes nothing: label cleaning is idempotent, the
keep-first dedup of the Profit and Loss table acts as the identity on its
already label-unique rows, and the numeric columns pass through the value
conversion unchanged (the textual stripping is guarded by a dtype test
and to_numeric is the identity on numeric data). -/
theorem C9_normalization_idempotent (t : RawTable) :
    renormalizeBS (normalizeBS t) = normalizeBS t ∧
    renormalizePnl (normalizePnl t) = normalizePnl t := by
  constructor
  · show Statement.mk t.cols
      ((t.rows.map (fun r => (cleanLabel r.1, r.2.map convBSCell))).map
        (fun r => (cleanLabel r.1, r.2)))
      = Statement.mk t.cols (t.rows.map (fun r => (cleanLabel r.1, r.2.map convBSCell)))
    congr 1
    rw [List.map_map]
    apply List.map_congr_left
    intro a ha
    show (cleanLabel (cleanLabel a.1), a.2.map convBSCell) = (cleanLabel a.1, a.2.map convBSCell)
    rw [cleanLabel_idem]
  · show Statement.mk t.cols
      (dedupGo [] (((dedupGo [] (t.rows.map (fun r => (cleanLabel r.1, r.2)))).map
        (fun r => (r.1, r.2.map convPnlCell))).map (fun r => (cleanLabel r.1, r.2))))
      = Statement.mk t.cols
        ((dedupGo [] (t.rows.map (fun r => (cleanLabel r.1, r.2)))).map
          (fun r => (r.1, r.2.map convPnlCell)))
    congr 1
    have h1 : ((dedupGo [] (t.rows.map (fun r => (cleanLabel r.1, r.2)))).map
          (fun r => (r.1, r.2.map convPnlCell))).map (fun r => (cleanLabel r.1, r.2))
        = (dedupGo [] (t.rows.map (fun r => (cleanLabel r.1, r.2)))).map
          (fun r => (r.1, r.2.map convPnlCell)) := by
      rw [List.map_map]
      apply List.map_congr_left
      intro a ha
      show (cleanLabel a.1, a.2.map convPnlCell) = (a.1, a.2.map convPnlCell)
      obtain ⟨raw, hraw, hre⟩ := List.mem_map.1 (mem_dedupGo ha)
      rw [← hre]
      show (cleanLabel (cleanLabel raw.1), raw.2.map convPnlCell) = _
      rw [cleanLabel_idem]
    rw [h1]
    apply dedupGo_eq_self
    · rw [List.map_map]
      exact dedupGo_labels_nodup [] (t.rows.map (fun r => (cleanLabel r.1, r.2)))
    · intro x hx
      exact List.not_mem_nil x.1
